import Mathlib

/-!
A shallow embedding of the Motify playlist manager (SvelteKit + Spotify Web
API client) and proofs about its track-navigation, playlist-mutation,
authentication and store logic.

Conventions of the embedding:
* JS objects coming from JSON are modelled with optional fields
  (`Option String`, `Option Bool`, ...); JS truthiness of a string field is
  "present and non-empty".
* Stateful code (the module-level playability cache, `localStorage`, the
  Svelte stores, the `SpotifyAPI` client object) is modelled by explicit
  state passing.
* `fetch` and the other external effects are modelled by oracles: records
  that fix, per call site, the response the outside world would give.
  Requests actually issued are reported in an event trace.
* Fallible code returns `Except`; `throw` is `.error`.
-/

namespace Motify

/-- JS string truthiness for an optional field: present and non-empty. -/
def truthyStr : Option String → Bool
  | none => false
  | some s => s ≠ ""

/-- `restrictions` object of a Spotify track (`restrictions?.reason`). -/
structure Restrictions where
  reason : Option String
  deriving Repr, DecidableEq

/-- `linked_from` object of a relinked Spotify track. -/
structure LinkedFrom where
  id : Option String
  uri : Option String
  deriving Repr, DecidableEq

/-- A Spotify track as it arrives from JSON: every field may be absent.
Mirrors the fields of `SpotifyTrack` in `src/lib/spotify.ts` that the
verified code reads. -/
structure TrackJS where
  id : Option String
  name : Option String
  uri : Option String
  is_playable : Option Bool
  restrictions : Option Restrictions
  linked_from : Option LinkedFrom
  deriving Repr, DecidableEq

/-- `getOperationalUri` from `src/lib/spotify.ts`:
`track.linked_from?.uri || track.uri`. JS `||` falls through on a falsy
(absent or empty) `linked_from.uri`. The result is an optional string
because `track.uri` itself may be absent in raw JSON. -/
def getOperationalUri (t : TrackJS) : Option String :=
  match t.linked_from with
  | some lf => if truthyStr lf.uri then lf.uri else t.uri
  | none => t.uri

/-- `isTrackRelinked` from `src/lib/spotify.ts`: `!!track.linked_from`. -/
def isTrackRelinked (t : TrackJS) : Bool :=
  t.linked_from.isSome

/-- The module-level `trackPlayabilityCache : Map<string, boolean>` of
`src/lib/utils.ts`, as an association list with newest entry first. -/
abbrev Cache := List (String × Bool)

/-- `Map.get` on the cache. -/
def cacheLookup : Cache → String → Option Bool
  | [], _ => none
  | (k, v) :: rest, i => if k = i then some v else cacheLookup rest i

/-- The verdict `isTrackPlayable` computes on a cache miss (the
`let isPlayable = true; if ... else if ... else if ...` chain). -/
def rawVerdict (t : TrackJS) : Bool :=
  if t.is_playable = some false then false
  else if truthyStr (t.restrictions.bind Restrictions.reason) then false
  else if ¬ truthyStr t.uri then false
  else true

/-- `isTrackPlayable` from `src/lib/utils.ts`. The argument is `Option`
because callers index possibly out of range (`tracks[currentIndex]`), in
which case JS passes `undefined`. Returns the verdict and the updated
cache. -/
def isTrackPlayable (c : Cache) (t? : Option TrackJS) : Bool × Cache :=
  match t? with
  | none => (false, c)
  | some t =>
    match t.id, t.name with
    | some i, some n =>
      if i = "" ∨ n = "" then (false, c)
      else
        match cacheLookup c i with
        | some v => (v, c)
        | none =>
          let v := rawVerdict t
          (v, (i, v) :: c)
    | _, _ => (false, c)

/-- `clearTrackPlayabilityCache` from `src/lib/utils.ts`. -/
def clearTrackPlayabilityCache : Cache := []

/-- One advance of the candidate index inside `findNextPlayableTrack`:
forward wraps from the last element to 0, anything other than
`direction === 1` steps backward and wraps from 0 to the last element. -/
def stepIndex (len : Nat) (direction : Int) (i : Int) : Int :=
  if direction = 1 then (if i < (len : Int) - 1 then i + 1 else 0)
  else (if i > 0 then i - 1 else (len : Int) - 1)

/-- JS `tracks[i]`: `undefined` outside the array bounds. -/
def getTrack? (tracks : List TrackJS) (i : Int) : Option TrackJS :=
  if 0 ≤ i then tracks.get? i.toNat else none

/-- The `while (attempts < maxAttempts)` loop of `findNextPlayableTrack`.
`fuel` is the remaining attempt budget (`maxAttempts - attempts`). Besides
the result and the cache it returns the trace of `(index, verdict)`
candidate visits. -/
def findLoop (tracks : List TrackJS) (startIndex direction : Int) :
    Nat → Int → Cache → Int × Cache × List (Int × Bool)
  | 0, _, c => (-1, c, [])
  | fuel + 1, i, c =>
    let j := stepIndex tracks.length direction i
    let r := isTrackPlayable c (getTrack? tracks j)
    if r.1 then (j, r.2, [(j, true)])
    else if j = startIndex then (-1, r.2, [(j, false)])
    else
      let rest := findLoop tracks startIndex direction fuel j r.2
      (rest.1, rest.2.1, (j, false) :: rest.2.2)

/-- `findNextPlayableTrack` from `src/lib/utils.ts`. -/
def findNextPlayableTrack (c : Cache) (tracks : List TrackJS)
    (startIndex : Int) (direction : Int) : Int × Cache × List (Int × Bool) :=
  if tracks.length = 0 then (-1, c, [])
  else findLoop tracks startIndex direction tracks.length startIndex c

/-- Iterated candidate stepping, for describing the cyclic visiting order. -/
def iterStep (len : Nat) (direction : Int) (start : Int) : Nat → Int
  | 0 => start
  | n + 1 => stepIndex len direction (iterStep len direction start n)

/-! ## The `SpotifyAPI` client (`src/lib/spotify.ts`)

`localStorage` keys touched by the client are modelled as the fields of
`Storage`; the in-memory `this.accessToken` together with the storage is the
client state. Time (`Date.now()`) is passed in as `now` in milliseconds. -/

/-- The `localStorage` keys the client reads and writes. -/
structure Storage where
  access : Option String
  refresh : Option String
  expiresAt : Option Nat
  verifier : Option String
  deriving Repr, DecidableEq

/-- State of the `SpotifyAPI` singleton: the in-memory `accessToken`
together with `localStorage`. -/
structure Client where
  accessToken : Option String
  storage : Storage
  deriving Repr, DecidableEq

/-- `isTokenExpired`: a missing `spotify_token_expires_at` counts as
expired, otherwise `Date.now() >= parseInt(expiresAt)`. -/
def isTokenExpired (now : Nat) (st : Storage) : Bool :=
  match st.expiresAt with
  | none => true
  | some e => e ≤ now

/-- `setAccessToken`: stores the token in memory and in `localStorage`. -/
def setAccessToken (tok : String) (c : Client) : Client :=
  { c with accessToken := some tok, storage := { c.storage with access := some tok } }

/-- `logout`: clears the in-memory token and removes all four stored keys. -/
def logout (_c : Client) : Client :=
  { accessToken := none,
    storage := { access := none, refresh := none, expiresAt := none, verifier := none } }

/-- Oracle for one call of `refreshAccessToken`: either the token endpoint
request fails, or it answers with a token, an optional rotated refresh
token and an `expires_in` (seconds). -/
inductive RefreshOutcome where
  | fail (msg : String)
  | ok (token : String) (newRefresh : Option String) (expiresIn : Nat)
  deriving Repr, DecidableEq

/-- The client state after a successful token refresh: the new access
token stored in memory and `localStorage`, the rotated refresh token when
the response carries one, and the new expiry. -/
def applyRefresh (now : Nat) (tok : String) (newRefresh : Option String)
    (expiresIn : Nat) (c : Client) : Client :=
  let c1 := setAccessToken tok c
  let st1 :=
    if truthyStr newRefresh then { c1.storage with refresh := newRefresh } else c1.storage
  { c1 with storage := { st1 with expiresAt := some (now + expiresIn * 1000) } }

/-- `refreshAccessToken` from `src/lib/spotify.ts`. Throws when no refresh
token is stored or the endpoint call fails; on success applies
`applyRefresh` and resolves with the new token. -/
def refreshAccessToken (now : Nat) (o : RefreshOutcome) (c : Client) :
    Except String (String × Client) :=
  if ¬ truthyStr c.storage.refresh then .error "No refresh token available"
  else
    match o with
    | .fail m => .error ("Token refresh failed: " ++ m)
    | .ok tok newRefresh expiresIn => .ok (tok, applyRefresh now tok newRefresh expiresIn c)

/-- The first half of `ensureValidToken`: take the in-memory token, fall
back to `localStorage`, and cache a truthy stored token in memory. -/
def readToken (c : Client) : Option String × Client :=
  if ¬ truthyStr c.accessToken then
    let t1 := c.storage.access
    if truthyStr t1 then (t1, { c with accessToken := t1 }) else (t1, c)
  else (c.accessToken, c)

/-- `ensureValidToken` from `src/lib/spotify.ts`: read the token
(`readToken`), refresh when it is truthy but expired. Returns the token
(or `none`), the updated client, and whether a refresh was attempted. The
total return type (instead of `Except`) reflects that the method never
throws: a failed refresh is caught, logs the client out and yields
`none`. -/
def ensureValidToken (now : Nat) (o : RefreshOutcome) (c : Client) :
    Option String × Client × Bool :=
  let p := readToken c
  if truthyStr p.1 ∧ isTokenExpired now p.2.storage = true then
    match refreshAccessToken now o p.2 with
    | .ok (tok, c2) => (some tok, c2, true)
    | .error _ => (none, logout p.2, true)
  else (p.1, p.2, false)

/-- An HTTP response as `fetch` resolves it: a status and a body text.
`response.ok` is derived (status in 200..299). -/
structure HttpResp where
  status : Nat
  body : String
  deriving Repr, DecidableEq

/-- `response.ok` of the Fetch API. -/
def HttpResp.respOk (r : HttpResp) : Bool :=
  decide (200 ≤ r.status ∧ r.status ≤ 299)

/-- The value `makeRequest` resolves with: `text ? JSON.parse(text) : {}`.
`JSON.parse` is abstracted: the parsed value is determined by the text. -/
inductive Body where
  | emptyObj
  | json (text : String)
  deriving Repr, DecidableEq

/-- `text ? JSON.parse(text) : {}`. -/
def parseBody (s : String) : Body :=
  if s = "" then .emptyObj else .json s

/-- Oracle for one call of `makeRequest`: the refresh outcome
`ensureValidToken` would see, the response to the initial request, and the
refresh outcome and response of the 401 retry path. -/
structure ReqEnv where
  ensureRefresh : RefreshOutcome
  firstResp : HttpResp
  retryRefresh : RefreshOutcome
  retryResp : HttpResp
  deriving Repr, DecidableEq

/-- Observable actions of `makeRequest`: requests against the REST API and
token-refresh attempts. -/
inductive Ev where
  | fetch (endpoint : String)
  | refreshTok
  deriving Repr, DecidableEq

/-- `makeRequest` from `src/lib/spotify.ts`: ensure a token, issue the
request, and on a 401 refresh once and retry the identical request; a
failed refresh or failed retry logs the client out and throws
`Authentication failed`; any other non-ok status throws
`Spotify API error: <status>`. -/
def makeRequest (now : Nat) (env : ReqEnv) (endpoint : String) (c : Client) :
    Except String Body × Client × List Ev :=
  let e := ensureValidToken now env.ensureRefresh c
  let evs0 : List Ev := if e.2.2 then [Ev.refreshTok] else []
  match e.1 with
  | none => (.error "No access token available", e.2.1, evs0)
  | some _ =>
    let c1 := e.2.1
    let evs1 := evs0 ++ [Ev.fetch endpoint]
    let r := env.firstResp
    if r.respOk then (.ok (parseBody r.body), c1, evs1)
    else if r.status = 401 then
      let evs2 := evs1 ++ [Ev.refreshTok]
      match refreshAccessToken now env.retryRefresh c1 with
      | .ok (_, c2) =>
        let evs3 := evs2 ++ [Ev.fetch endpoint]
        let r2 := env.retryResp
        if r2.respOk then (.ok (parseBody r2.body), c2, evs3)
        else (.error "Authentication failed", logout c2, evs3)
      | .error _ => (.error "Authentication failed", logout c1, evs2)
    else (.error ("Spotify API error: " ++ toString r.status), c1, evs1)

/-! ## Shuffle toggling (`Player.svelte` `toggleShuffle` and the
`originalTrackOrder` store) -/

/-- JS `Array.prototype.findIndex` specialised to the
`t => t.id === tid` predicates used throughout the repository:
the first index whose (optional) id strictly equals `tid`, else `-1`. -/
def findIndexById (tracks : List TrackJS) (tid : Option String) : Int :=
  match tracks with
  | [] => -1
  | t :: rest =>
    if t.id = tid then 0
    else
      let r := findIndexById rest tid
      if r = -1 then -1 else r + 1

/-- Modelled from the spec: `shuffleArray` is imported by `Player.svelte`
from `$lib/utils` but its definition is not among the available sources.
The spec pins down only that shuffling "replaces currentTracks with a
permutation of it"; the missing randomness is modelled by an index oracle
`rand`, and `shuffleArray_perm` below proves the permutation property for
every oracle. `fuel` bounds the recursion by the input length. -/
def shuffleGo (rand : Nat → Nat) : Nat → Nat → List TrackJS → List TrackJS
  | 0, _, l => l
  | fuel + 1, n, l =>
    match l with
    | [] => []
    | _ :: _ =>
      let k := rand n % l.length
      match l.get? k with
      | none => l
      | some x => x :: shuffleGo rand fuel (n + 1) (l.erase x)

/-- Modelled from the spec: `shuffleArray` (see `shuffleGo`). -/
def shuffleArray (rand : Nat → Nat) (l : List TrackJS) : List TrackJS :=
  shuffleGo rand l.length 0 l

/-- The slice of component/store state `toggleShuffle` touches. -/
structure PlayerState where
  currentTracks : List TrackJS
  originalTrackOrder : List TrackJS
  currentTrackIndex : Int
  currentTrack : Option TrackJS
  isShuffleOn : Bool
  deriving Repr, DecidableEq

/-- `toggleShuffle` from `Player.svelte`, parameterised by the shuffle
function. Toggling on saves the current order into `originalTrackOrder`
(only when none is saved), shuffles, and repoints `currentTrackIndex` at
the playing track; toggling off restores the saved order and repoints the
index into it. -/
def toggleShuffle (shuffle : List TrackJS → List TrackJS) (s : PlayerState) :
    PlayerState :=
  let newShuffleState := !s.isShuffleOn
  if newShuffleState then
    let s1 :=
      if s.originalTrackOrder.length = 0 then
        { s with originalTrackOrder := s.currentTracks }
      else s
    let currentTrackId := s1.currentTrack.bind TrackJS.id
    let shuffled := shuffle s1.currentTracks
    let s2 := { s1 with currentTracks := shuffled }
    let s3 :=
      if truthyStr currentTrackId then
        let newIndex := findIndexById shuffled currentTrackId
        if 0 ≤ newIndex then { s2 with currentTrackIndex := newIndex } else s2
      else s2
    { s3 with isShuffleOn := newShuffleState }
  else
    let s1 :=
      if 0 < s.originalTrackOrder.length then
        let currentTrackId := s.currentTrack.bind TrackJS.id
        let s2 := { s with currentTracks := s.originalTrackOrder }
        if truthyStr currentTrackId then
          let originalIndex := findIndexById s.originalTrackOrder currentTrackId
          if 0 ≤ originalIndex then { s2 with currentTrackIndex := originalIndex }
          else s2
        else s2
      else s
    { s1 with isShuffleOn := newShuffleState }

/-! ## Playlist mutation (`removeTrack`, `moveTrack` in `src/lib/utils.ts`)

The store slice these functions read and write, the REST calls they make
(as an event trace), and oracles for the outcomes of those calls. The
auto-play that follows a removal of the playing track calls the `playTrack`
helper, whose vendor-SDK interaction is abstracted as a state function
parameter `autoplay`; the claims below are settled in states where that
branch is not taken. -/

/-- The playlist fields `moveTrack`/`removeTrack` read. -/
structure Playlist where
  id : String
  name : String
  deriving Repr, DecidableEq

/-- Store values and module state visible to `removeTrack`/`moveTrack`. -/
structure MutStores where
  currentTracks : List TrackJS
  currentTrack : Option TrackJS
  currentTrackIndex : Int
  isPlaying : Bool
  selectedPlaylist : Option Playlist
  targetPlaylist : Option Playlist
  cache : Cache
  deriving Repr, DecidableEq

/-- REST calls issued by the playlist-mutation helpers. -/
inductive ApiEv where
  | getPlaylistTracks (pid : String)
  | addTrack (pid : String) (uri : Option String)
  | removeTrackCall (pid : String) (uri : Option String)
  | getPlaylist (pid : String)
  deriving Repr, DecidableEq

/-- Oracle for one `removeTrack`/`moveTrack` run: the result
`handleAPIError(getPlaylistTracks)` yields (`none` models a swallowed
failure), the outcomes of the add and remove REST calls, and the result of
the target-playlist refresh. -/
structure UtilsEnv where
  targetTracksResult : Option (List TrackJS)
  addOutcome : Except String Unit
  removeOutcome : Except String Unit
  refreshedTarget : Option Playlist
  deriving Repr

/-- The `addTrackToPlaylist` helper of `src/lib/utils.ts`: fetch the
target playlist's tracks (through `handleAPIError`, which never throws),
and add the track (by its operational URI) only when no track with the
same id is present; returns whether the track was added. -/
def addTrackToPlaylistHelper (env : UtilsEnv) (track : TrackJS)
    (playlistId : String) : Except String Bool × List ApiEv :=
  let opUri := getOperationalUri track
  let alreadyExists :=
    match env.targetTracksResult with
    | some l => l.any (fun t => t.id == track.id)
    | none => false
  if !alreadyExists then
    match env.addOutcome with
    | .ok _ =>
      (.ok true, [ApiEv.getPlaylistTracks playlistId, ApiEv.addTrack playlistId opUri])
    | .error e =>
      (.error e, [ApiEv.getPlaylistTracks playlistId, ApiEv.addTrack playlistId opUri])
  else (.ok false, [ApiEv.getPlaylistTracks playlistId])

/-- The auto-play block shared by `removeTrack` and `moveTrack`: prefer
the track that slid into the removed slot, else search forward for a
playable one, else clear the playing state. `autoplay` abstracts the
`playTrack` helper. -/
def afterRemovalAutoplay (autoplay : TrackJS → List TrackJS → MutStores → MutStores)
    (currentIndex : Int) (updatedTracks : List TrackJS) (st : MutStores) :
    MutStores :=
  let startSearchIndex := min currentIndex ((updatedTracks.length : Int) - 1)
  let fallback := fun (st1 : MutStores) =>
    let f := findNextPlayableTrack st1.cache updatedTracks startSearchIndex 1
    let st2 := { st1 with cache := f.2.1 }
    if f.1 ≠ -1 then
      match getTrack? updatedTracks f.1 with
      | some nt => autoplay nt updatedTracks st2
      | none => st2
    else
      { st2 with currentTrack := none, currentTrackIndex := -1, isPlaying := false }
  if 0 ≤ startSearchIndex then
    let p := isTrackPlayable st.cache (getTrack? updatedTracks startSearchIndex)
    let st1 := { st with cache := p.2 }
    if p.1 then
      match getTrack? updatedTracks startSearchIndex with
      | some nextTrack => autoplay nextTrack updatedTracks st1
      | none => st1
    else fallback st1
  else fallback st

/-- `removeTrack` from `src/lib/utils.ts`: remove the track remotely
(by operational URI) from the selected playlist, and only on success
replace the `currentTracks` store and the returned list with the input
minus every track of that id; a thrown removal leaves both unchanged. -/
def removeTrack (env : UtilsEnv)
    (autoplay : TrackJS → List TrackJS → MutStores → MutStores)
    (track : TrackJS) (tracks : List TrackJS) (st : MutStores) :
    List TrackJS × MutStores × List ApiEv :=
  match st.selectedPlaylist with
  | none => (tracks, st, [])
  | some sel =>
    let isCurrentlyPlaying := (st.currentTrack.bind TrackJS.id) == track.id
    let currentIndex := findIndexById tracks track.id
    let opUri := getOperationalUri track
    match env.removeOutcome with
    | .error _ => (tracks, st, [ApiEv.removeTrackCall sel.id opUri])
    | .ok _ =>
      let updatedTracks := tracks.filter (fun t => !(t.id == track.id))
      let st1 := { st with currentTracks := updatedTracks }
      let st2 :=
        if isCurrentlyPlaying ∧ 0 < updatedTracks.length then
          afterRemovalAutoplay autoplay currentIndex updatedTracks st1
        else st1
      (updatedTracks, st2, [ApiEv.removeTrackCall sel.id opUri])

/-- `moveTrack` from `src/lib/utils.ts`: add to the target playlist (only
when absent there), remove from the selected playlist by operational URI,
replace the local list with the input minus every track of that id, and
refresh the target playlist; with either playlist unset the input is
returned unchanged. -/
def moveTrack (env : UtilsEnv)
    (autoplay : TrackJS → List TrackJS → MutStores → MutStores)
    (track : TrackJS) (tracks : List TrackJS) (st : MutStores) :
    List TrackJS × MutStores × List ApiEv :=
  match st.targetPlaylist, st.selectedPlaylist with
  | some tgt, some sel =>
    let isCurrentlyPlaying := (st.currentTrack.bind TrackJS.id) == track.id
    let currentIndex := findIndexById tracks track.id
    let opUri := getOperationalUri track
    let a := addTrackToPlaylistHelper env track tgt.id
    match a.1 with
    | .error _ => (tracks, st, a.2)
    | .ok _trackWasAdded =>
      match env.removeOutcome with
      | .error _ => (tracks, st, a.2 ++ [ApiEv.removeTrackCall sel.id opUri])
      | .ok _ =>
        let updatedTracks := tracks.filter (fun t => !(t.id == track.id))
        let st1 := { st with currentTracks := updatedTracks }
        let st2 :=
          match env.refreshedTarget with
          | some p => { st1 with targetPlaylist := some p }
          | none => st1
        let evs := a.2 ++ [ApiEv.removeTrackCall sel.id opUri, ApiEv.getPlaylist tgt.id]
        let st3 :=
          if isCurrentlyPlaying ∧ 0 < updatedTracks.length then
            afterRemovalAutoplay autoplay currentIndex updatedTracks st2
          else st2
        (updatedTracks, st3, evs)
  | _, _ => (tracks, st, [])

/-! ## Playlist pagination (`SpotifyAPI.getUserPlaylists`) -/

/-- Result of one `makeRequest` inside the pagination loop: a thrown
error, or a parsed page with an optional `items` array (playlist objects
are opaque strings here) and an optional `next` link. -/
inductive PageResult where
  | err (e : String)
  | page (items : Option (List String)) (next : Option String)
  deriving Repr

/-- Oracle for a `getUserPlaylists` run: the response to the k-th request
(k is the 1-based `pageCount`) and the browser's `new URL` parser, giving
`(pathname, search)` or `none` when construction throws. -/
structure PagesEnv where
  respond : Nat → PageResult
  parseUrl : String → Option (String × String)

/-- The `while (url)` loop of `getUserPlaylists`. `fuel` is an upper bound
on iterations only; the loop itself stops via `next`/parse-failure/the
`pageCount > 20` guard, and `getUserPlaylists_pages_le` shows the fuel is
never exhausted from the actual entry point. Returns the thrown or
returned value and the trace of requested URLs. -/
def playlistsLoop (env : PagesEnv) :
    Nat → Nat → String → List String → Except String (List String) × List String
  | 0, _, _, acc => (.ok acc, [])
  | fuel + 1, pc, url, acc =>
    let pc1 := pc + 1
    match env.respond pc1 with
    | .err e => (.error e, [url])
    | .page none _ => (.error "Invalid response format from Spotify API", [url])
    | .page (some items) next =>
      let acc1 := acc ++ items
      match next with
      | none => (.ok acc1, [url])
      | some nextUrl =>
        match env.parseUrl nextUrl with
        | none => (.ok acc1, [url])
        | some ps =>
          if pc1 > 20 then (.ok acc1, [url])
          else
            let rest := playlistsLoop env fuel pc1 (ps.1 ++ ps.2) acc1
            (rest.1, url :: rest.2)

/-- `getUserPlaylists` from `src/lib/spotify.ts`: pages of 50, following
each `next` link re-rooted to `pathname + search`. -/
def getUserPlaylists (env : PagesEnv) : Except String (List String) × List String :=
  playlistsLoop env 30 0 "/me/playlists?limit=50" []

/-- The concatenation, in page order, of the `items` of pages
`pc + 1 .. pc + m` (for stating what pagination returns). -/
def pagesConcat (its : Nat → List String) (pc : Nat) : Nat → List String
  | 0 => []
  | m + 1 => its (pc + 1) ++ pagesConcat its (pc + 1) m

/-- The re-rooted (`pathname + search`) next URLs of pages
`pc + 1 .. pc + m` (for stating which URLs pagination requests). -/
def nextUrls (pu : Nat → String × String) (pc : Nat) : Nat → List String
  | 0 => []
  | m + 1 => ((pu (pc + 1)).1 ++ (pu (pc + 1)).2) :: nextUrls pu (pc + 1) m

/-! ## The polling fallback (`Player.svelte` `onMount` and
`updatePlaybackState`)

The component's timers are modelled as a machine stepped in 100 ms ticks,
the granularity at which all three timers fire (the 100 ms
`checkInitialization` interval, the 10 s fallback timeout, and the 1 s
polling interval created by the timeout). Oracles give, per absolute time
in ms: the device id `webPlaybackService.getDeviceId()` would report, the
REST playback state, and whether the user is dragging the seek bar.
Timers due at the same instant fire in creation order, so the 100 ms check
runs before the 10 s timeout at t = 10000. -/

/-- `state.item` of the REST playback state, with the fields
`updatePlaybackState` reads from it. -/
structure PollItem where
  uri : Option String
  duration_ms : Nat
  deriving Repr, DecidableEq

/-- The REST playback state returned by `getPlaybackState`. -/
structure RestPlaybackState where
  item : Option PollItem
  is_playing : Bool
  progress_ms : Nat
  deriving Repr, DecidableEq

/-- The four stores `updatePlaybackState` overwrites. Positions and
durations are in (exact) seconds. -/
structure PollStores where
  currentTrack : Option PollItem
  isPlaying : Bool
  playbackPosition : ℚ
  trackDuration : ℚ
  deriving Repr, DecidableEq

/-- `updatePlaybackState` from `Player.svelte`: skipped entirely while
dragging; a failed fetch only logs; a state containing an item overwrites
all four stores. -/
def updatePlaybackState (resp : Except String (Option RestPlaybackState))
    (isDragging : Bool) (s : PollStores) : PollStores :=
  if isDragging then s
  else
    match resp with
    | .error _ => s
    | .ok none => s
    | .ok (some st) =>
      match st.item with
      | none => s
      | some it =>
        { currentTrack := some it,
          isPlaying := st.is_playing,
          playbackPosition := (st.progress_ms : ℚ) / 1000,
          trackDuration := (it.duration_ms : ℚ) / 1000 }

/-- Oracles for the Player component's timers, indexed by absolute time in
ms since mount. -/
structure PollEnv where
  device : Nat → Option String
  resp : Nat → Except String (Option RestPlaybackState)
  dragging : Nat → Bool

/-- Timer/flag state of the mounted Player component. `events` records the
times at which `getPlaybackState` was fetched by the polling interval. -/
structure PlayerTimers where
  time : Nat
  isPlayerReady : Bool
  checkActive : Bool
  pollActive : Bool
  stores : PollStores
  events : List Nat
  deriving Repr, DecidableEq

/-- `onMount`: with a device id already present the component is ready at
once; otherwise it starts the 100 ms `checkInitialization` interval (the
10 s fallback timeout is represented by the `t = 10000` case of
`stepTimers`). -/
def mountPlayer (env : PollEnv) (s0 : PollStores) : PlayerTimers :=
  if (env.device 0).isSome then
    { time := 0, isPlayerReady := true, checkActive := false, pollActive := false,
      stores := s0, events := [] }
  else
    { time := 0, isPlayerReady := false, checkActive := true, pollActive := false,
      stores := s0, events := [] }

/-- One 100 ms tick of the component's timers, firing whichever of the
check interval, the 10 s timeout and the polling interval are due. -/
def stepTimers (env : PollEnv) (s : PlayerTimers) : PlayerTimers :=
  let t := s.time + 100
  let s1 :=
    if s.checkActive then
      if (env.device t).isSome then
        { s with isPlayerReady := true, checkActive := false }
      else s
    else s
  let s2 :=
    if t = 10000 then
      if ¬ s1.isPlayerReady then { s1 with checkActive := false, pollActive := true }
      else s1
    else s1
  let s3 :=
    if s2.pollActive ∧ 10000 < t ∧ (t - 10000) % 1000 = 0 then
      if env.dragging t then s2
      else
        { s2 with stores := updatePlaybackState (env.resp t) false s2.stores,
                  events := s2.events ++ [t] }
    else s2
  { s3 with time := t }

/-- The component state n 100 ms ticks after mount. -/
def runTimers (env : PollEnv) (s0 : PollStores) : Nat → PlayerTimers
  | 0 => mountPlayer env s0
  | n + 1 => stepTimers env (runTimers env s0 n)

/-! ## The repeat-mode store (`stores.ts` `createRepeatModeStore`,
`Player.svelte` `cycleRepeatMode`) -/

/-- The three legal repeat modes, as the strings the store holds. -/
def repeatModeValues : List String := ["off", "playlist", "track"]

/-- The custom repeat-mode store: its current value and the
`motify-repeat-mode` `localStorage` entry. -/
structure RepeatStore where
  value : String
  stored : Option String
  deriving Repr, DecidableEq

/-- `createRepeatModeStore`'s initialisation: take the stored mode when
it is truthy and one of the three legal values, else fall back to
`"off"`. -/
def initRepeatMode (stored : Option String) : RepeatStore :=
  let initial :=
    match stored with
    | some s => if s ≠ "" ∧ s ∈ repeatModeValues then s else "off"
    | none => "off"
  { value := initial, stored := stored }

/-- The store's `set`: persists the new value to `localStorage` and then
sets the store. -/
def repeatModeSet (v : String) (_st : RepeatStore) : RepeatStore :=
  { value := v, stored := some v }

/-- The mode `cycleRepeatMode` in `Player.svelte` steps to:
off → playlist → track → off (any value outside the union type would also
fall to `"off"`). -/
def cycleRepeatMode (m : String) : String :=
  if m = "off" then "playlist"
  else if m = "playlist" then "track"
  else "off"

/-- One user press of the repeat button: compute the next mode from the
store's value and `set` it. -/
def pressRepeat (st : RepeatStore) : RepeatStore :=
  repeatModeSet (cycleRepeatMode st.value) st

/-! ## Helper lemmas -/

theorem truthyStr_iff (o : Option String) :
    truthyStr o = true ↔ ∃ s, o = some s ∧ s ≠ "" := by
  cases o <;> simp [truthyStr]

theorem readToken_storage (c : Client) : (readToken c).2.storage = c.storage := by
  by_cases h0 : truthyStr c.accessToken
  · simp [readToken, h0]
  · by_cases h1 : truthyStr c.storage.access <;> simp [readToken, h0, h1]

theorem readToken_of_memory (c : Client) (t : String) (h : c.accessToken = some t)
    (h0 : t ≠ "") : readToken c = (some t, c) := by
  have h2 : truthyStr (some t) = true := by simp [truthyStr, h0]
  simp [readToken, h, h2]

theorem ensureValidToken_valid (now : Nat) (o : RefreshOutcome) (c : Client)
    (t : String) (h : c.accessToken = some t) (h0 : t ≠ "")
    (hexp : isTokenExpired now c.storage = false) :
    ensureValidToken now o c = (some t, c, false) := by
  simp only [ensureValidToken, readToken_of_memory c t h h0]
  simp [hexp]

/-! ## C2: `ensureValidToken` -/

/-- C2: with no access token stored, `ensureValidToken` returns `none`
without attempting a refresh; a stored unexpired token (a missing expiry
counts as expired) is returned unchanged; an expired token triggers a
refresh whose new token is returned on success; and a failed refresh logs
the client out — removing access token, refresh token and expiry from
storage — and returns `none` (the function is total: it never throws). -/
theorem ensureValidToken_spec :
    (∀ now o c, c.accessToken = none → c.storage.access = none →
       ensureValidToken now o c = (none, c, false)) ∧
    (∀ now o c, truthyStr (readToken c).1 = true →
       isTokenExpired now c.storage = false →
       ensureValidToken now o c = ((readToken c).1, (readToken c).2, false)) ∧
    (∀ now st, st.expiresAt = none → isTokenExpired now st = true) ∧
    (∀ now c tok nr exp, truthyStr (readToken c).1 = true →
       isTokenExpired now c.storage = true →
       truthyStr c.storage.refresh = true →
       ensureValidToken now (RefreshOutcome.ok tok nr exp) c =
         (some tok, applyRefresh now tok nr exp (readToken c).2, true)) ∧
    (∀ now o c msg, truthyStr (readToken c).1 = true →
       isTokenExpired now c.storage = true →
       refreshAccessToken now o (readToken c).2 = .error msg →
       ensureValidToken now o c = (none, logout (readToken c).2, true)) ∧
    (∀ c1, (logout c1).accessToken = none ∧ (logout c1).storage.access = none ∧
       (logout c1).storage.refresh = none ∧ (logout c1).storage.expiresAt = none) := by
  refine ⟨?_, ?_, ?_, ?_, ?_, fun c1 => ⟨rfl, rfl, rfl, rfl⟩⟩
  · intro now o c hA hS
    have hr : readToken c = (none, c) := by simp [readToken, hA, hS, truthyStr]
    simp [ensureValidToken, hr, truthyStr]
  · intro now o c ht hexp
    have hst : (readToken c).2.storage = c.storage := readToken_storage c
    simp [ensureValidToken, hst, hexp]
  · intro now st h
    simp [isTokenExpired, h]
  · intro now c tok nr exp ht hexp href
    have hst : (readToken c).2.storage = c.storage := readToken_storage c
    have href2 : truthyStr (readToken c).2.storage.refresh = true := by rw [hst]; exact href
    simp [ensureValidToken, ht, hst, hexp, refreshAccessToken, href, href2]
  · intro now o c msg ht hexp herr
    have hst : (readToken c).2.storage = c.storage := readToken_storage c
    simp [ensureValidToken, ht, hst, hexp, herr]

/-- Witness for C2 at concrete inputs: an unexpired stored token is
returned unchanged. -/
theorem ensureValidToken_spec_witness :
    ensureValidToken 0 (RefreshOutcome.fail "x")
        ⟨some "tok", ⟨some "tok", some "ref", some 100, none⟩⟩ =
      (some "tok", ⟨some "tok", ⟨some "tok", some "ref", some 100, none⟩⟩, false) := by
  have h := ensureValidToken_spec.2.1 0 (RefreshOutcome.fail "x")
    ⟨some "tok", ⟨some "tok", some "ref", some 100, none⟩⟩ (by decide) (by decide)
  exact h.trans (by decide)

/-! ## C1: `makeRequest` and the retry-on-401 wrapper -/

/-- C1: through `makeRequest` (called with a valid unexpired token), a
response with status 401 causes exactly one token refresh followed by one
retry of the identical request; when the retry succeeds its parsed body is
returned; otherwise — a non-ok retry response, or the refresh itself
throwing — the client logs out, clearing every stored token, and the call
throws `Authentication failed`; any other non-ok status throws
`Spotify API error: <status>` without any retry. -/
theorem makeRequest_spec :
    ∀ now env endpoint c t,
      c.accessToken = some t → t ≠ "" →
      isTokenExpired now c.storage = false →
      ((env.firstResp.status = 401 →
         (∀ tok nr exp, env.retryRefresh = RefreshOutcome.ok tok nr exp →
            truthyStr c.storage.refresh = true →
            ((env.retryResp.respOk = true →
               makeRequest now env endpoint c =
                 (.ok (parseBody env.retryResp.body), applyRefresh now tok nr exp c,
                  [Ev.fetch endpoint, Ev.refreshTok, Ev.fetch endpoint]) ∧
               (applyRefresh now tok nr exp c).accessToken = some tok) ∧
             (env.retryResp.respOk = false →
               makeRequest now env endpoint c =
                 (.error "Authentication failed", logout (applyRefresh now tok nr exp c),
                  [Ev.fetch endpoint, Ev.refreshTok, Ev.fetch endpoint])))) ∧
         (∀ msg, refreshAccessToken now env.retryRefresh c = .error msg →
            makeRequest now env endpoint c =
              (.error "Authentication failed", logout c,
               [Ev.fetch endpoint, Ev.refreshTok]))) ∧
       (env.firstResp.respOk = false → env.firstResp.status ≠ 401 →
         makeRequest now env endpoint c =
           (.error ("Spotify API error: " ++ toString env.firstResp.status), c,
            [Ev.fetch endpoint])) ∧
       (∀ c1, (logout c1).accessToken = none ∧ (logout c1).storage.access = none ∧
          (logout c1).storage.refresh = none ∧ (logout c1).storage.expiresAt = none)) := by
  intro now env endpoint c t hA h0 hexp
  have hens := ensureValidToken_valid now env.ensureRefresh c t hA h0 hexp
  refine ⟨?_, ?_, fun c1 => ⟨rfl, rfl, rfl, rfl⟩⟩
  · intro h401
    have hok : env.firstResp.respOk = false := by
      simp [HttpResp.respOk, h401]
    refine ⟨?_, ?_⟩
    · intro tok nr exp hro href
      have hr : refreshAccessToken now env.retryRefresh c =
          .ok (tok, applyRefresh now tok nr exp c) := by
        simp [refreshAccessToken, hro, href]
      constructor
      · intro h2
        refine ⟨?_, rfl⟩
        simp [makeRequest, hens, hok, h401, hr, h2]
      · intro h2
        simp [makeRequest, hens, hok, h401, hr, h2]
    · intro msg herr
      simp [makeRequest, hens, hok, h401, herr]
  · intro hok h401
    simp [makeRequest, hens, hok, h401]

/-- Witness for C1 at concrete inputs: a 401 followed by a successful
refresh and a successful retry returns the retry's parsed body. -/
theorem makeRequest_spec_witness :
    makeRequest 0
        ⟨RefreshOutcome.fail "e", ⟨401, ""⟩, RefreshOutcome.ok "t2" none 3600, ⟨200, "body"⟩⟩
        "/me" ⟨some "t", ⟨some "t", some "r", some 100, none⟩⟩ =
      (.ok (parseBody "body"),
       applyRefresh 0 "t2" none 3600 ⟨some "t", ⟨some "t", some "r", some 100, none⟩⟩,
       [Ev.fetch "/me", Ev.refreshTok, Ev.fetch "/me"]) := by
  have h := makeRequest_spec 0
    ⟨RefreshOutcome.fail "e", ⟨401, ""⟩, RefreshOutcome.ok "t2" none 3600, ⟨200, "body"⟩⟩
    "/me" ⟨some "t", ⟨some "t", some "r", some 100, none⟩⟩ "t" rfl (by decide) (by decide)
  exact (((h.1 rfl).1 "t2" none 3600 rfl (by decide)).1 (by decide)).1

/-! ## C6: `getUserPlaylists` pagination -/

theorem playlistsLoop_ok (env : PagesEnv) (its : Nat → List String)
    (nxt : Nat → String) (pu : Nat → String × String) :
    ∀ m fuel pc url acc,
      0 < m → m ≤ fuel → pc + m ≤ 21 →
      (∀ k, pc < k → k < pc + m →
        env.respond k = .page (some (its k)) (some (nxt k)) ∧
        env.parseUrl (nxt k) = some (pu k)) →
      env.respond (pc + m) = .page (some (its (pc + m))) none →
      playlistsLoop env fuel pc url acc =
        (.ok (acc ++ pagesConcat its pc m), url :: nextUrls pu pc (m - 1)) := by
  intro m
  induction m with
  | zero => intro fuel pc url acc h0; exact absurd h0 (by omega)
  | succ m ih =>
    intro fuel pc url acc h0 hf h21 hgood hlast
    obtain ⟨f, rfl⟩ : ∃ f, fuel = f + 1 := ⟨fuel - 1, by omega⟩
    rcases Nat.eq_zero_or_pos m with hm | hm
    · subst hm
      have hl : env.respond (pc + 1) = .page (some (its (pc + 1))) none := by
        simpa using hlast
      simp [playlistsLoop, hl, pagesConcat, nextUrls]
    · have hg1 := hgood (pc + 1) (by omega) (by omega)
      have hpc : ¬ pc + 1 > 20 := by omega
      have hred : playlistsLoop env (f + 1) pc url acc =
          ((playlistsLoop env f (pc + 1) ((pu (pc + 1)).1 ++ (pu (pc + 1)).2)
              (acc ++ its (pc + 1))).1,
           url :: (playlistsLoop env f (pc + 1) ((pu (pc + 1)).1 ++ (pu (pc + 1)).2)
              (acc ++ its (pc + 1))).2) := by
        simp [playlistsLoop, hg1.1, hg1.2, hpc]
      have hih := ih f (pc + 1) ((pu (pc + 1)).1 ++ (pu (pc + 1)).2)
        (acc ++ its (pc + 1)) hm (by omega) (by omega)
        (fun k hk1 hk2 => hgood k (by omega) (by omega))
        (by
          have he : pc + 1 + m = pc + (m + 1) := by omega
          rw [he]; exact hlast)
      rw [hred, hih]
      obtain ⟨m2, rfl⟩ : ∃ m2, m = m2 + 1 := ⟨m - 1, by omega⟩
      simp [pagesConcat, nextUrls, List.append_assoc]

theorem playlistsLoop_invalid (env : PagesEnv) (its : Nat → List String)
    (nxt : Nat → String) (pu : Nat → String × String) :
    ∀ m fuel pc url acc (nx : Option String),
      0 < m → m ≤ fuel → pc + m ≤ 21 →
      (∀ k, pc < k → k < pc + m →
        env.respond k = .page (some (its k)) (some (nxt k)) ∧
        env.parseUrl (nxt k) = some (pu k)) →
      env.respond (pc + m) = .page none nx →
      (playlistsLoop env fuel pc url acc).1 =
        .error "Invalid response format from Spotify API" := by
  intro m
  induction m with
  | zero => intro fuel pc url acc nx h0; exact absurd h0 (by omega)
  | succ m ih =>
    intro fuel pc url acc nx h0 hf h21 hgood hlast
    obtain ⟨f, rfl⟩ : ∃ f, fuel = f + 1 := ⟨fuel - 1, by omega⟩
    rcases Nat.eq_zero_or_pos m with hm | hm
    · subst hm
      have hl : env.respond (pc + 1) = .page none nx := by simpa using hlast
      simp [playlistsLoop, hl]
    · have hg1 := hgood (pc + 1) (by omega) (by omega)
      have hpc : ¬ pc + 1 > 20 := by omega
      have hih := ih f (pc + 1) ((pu (pc + 1)).1 ++ (pu (pc + 1)).2)
        (acc ++ its (pc + 1)) nx hm (by omega) (by omega)
        (fun k hk1 hk2 => hgood k (by omega) (by omega))
        (by
          have he : pc + 1 + m = pc + (m + 1) := by omega
          rw [he]; exact hlast)
      simpa [playlistsLoop, hg1.1, hg1.2, hpc] using hih

theorem playlistsLoop_parseFail (env : PagesEnv) (its : Nat → List String)
    (nxt : Nat → String) (pu : Nat → String × String) :
    ∀ m fuel pc url acc (u : String),
      0 < m → m ≤ fuel → pc + m ≤ 21 →
      (∀ k, pc < k → k < pc + m →
        env.respond k = .page (some (its k)) (some (nxt k)) ∧
        env.parseUrl (nxt k) = some (pu k)) →
      env.respond (pc + m) = .page (some (its (pc + m))) (some u) →
      env.parseUrl u = none →
      playlistsLoop env fuel pc url acc =
        (.ok (acc ++ pagesConcat its pc m), url :: nextUrls pu pc (m - 1)) := by
  intro m
  induction m with
  | zero => intro fuel pc url acc u h0; exact absurd h0 (by omega)
  | succ m ih =>
    intro fuel pc url acc u h0 hf h21 hgood hlast hpf
    obtain ⟨f, rfl⟩ : ∃ f, fuel = f + 1 := ⟨fuel - 1, by omega⟩
    rcases Nat.eq_zero_or_pos m with hm | hm
    · subst hm
      have hl : env.respond (pc + 1) = .page (some (its (pc + 1))) (some u) := by
        simpa using hlast
      simp [playlistsLoop, hl, hpf, pagesConcat, nextUrls]
    · have hg1 := hgood (pc + 1) (by omega) (by omega)
      have hpc : ¬ pc + 1 > 20 := by omega
      have hred : playlistsLoop env (f + 1) pc url acc =
          ((playlistsLoop env f (pc + 1) ((pu (pc + 1)).1 ++ (pu (pc + 1)).2)
              (acc ++ its (pc + 1))).1,
           url :: (playlistsLoop env f (pc + 1) ((pu (pc + 1)).1 ++ (pu (pc + 1)).2)
              (acc ++ its (pc + 1))).2) := by
        simp [playlistsLoop, hg1.1, hg1.2, hpc]
      have hih := ih f (pc + 1) ((pu (pc + 1)).1 ++ (pu (pc + 1)).2)
        (acc ++ its (pc + 1)) u hm (by omega) (by omega)
        (fun k hk1 hk2 => hgood k (by omega) (by omega))
        (by
          have he : pc + 1 + m = pc + (m + 1) := by omega
          rw [he]; exact hlast) hpf
      rw [hred, hih]
      obtain ⟨m2, rfl⟩ : ∃ m2, m = m2 + 1 := ⟨m - 1, by omega⟩
      simp [pagesConcat, nextUrls, List.append_assoc]

theorem playlistsLoop_break (env : PagesEnv) (its : Nat → List String)
    (nxt : Nat → String) (pu : Nat → String × String) :
    ∀ m fuel pc url acc,
      0 < m → m ≤ fuel → pc + m = 21 →
      (∀ k, pc < k → k ≤ 21 →
        env.respond k = .page (some (its k)) (some (nxt k)) ∧
        env.parseUrl (nxt k) = some (pu k)) →
      playlistsLoop env fuel pc url acc =
        (.ok (acc ++ pagesConcat its pc m), url :: nextUrls pu pc (m - 1)) := by
  intro m
  induction m with
  | zero => intro fuel pc url acc h0; exact absurd h0 (by omega)
  | succ m ih =>
    intro fuel pc url acc h0 hf h21 hgood
    obtain ⟨f, rfl⟩ : ∃ f, fuel = f + 1 := ⟨fuel - 1, by omega⟩
    rcases Nat.eq_zero_or_pos m with hm | hm
    · subst hm
      have hg1 := hgood (pc + 1) (by omega) (by omega)
      have hpc : pc + 1 > 20 := by omega
      simp [playlistsLoop, hg1.1, hg1.2, hpc, pagesConcat, nextUrls]
    · have hg1 := hgood (pc + 1) (by omega) (by omega)
      have hpc : ¬ pc + 1 > 20 := by omega
      have hred : playlistsLoop env (f + 1) pc url acc =
          ((playlistsLoop env f (pc + 1) ((pu (pc + 1)).1 ++ (pu (pc + 1)).2)
              (acc ++ its (pc + 1))).1,
           url :: (playlistsLoop env f (pc + 1) ((pu (pc + 1)).1 ++ (pu (pc + 1)).2)
              (acc ++ its (pc + 1))).2) := by
        simp [playlistsLoop, hg1.1, hg1.2, hpc]
      have hih := ih f (pc + 1) ((pu (pc + 1)).1 ++ (pu (pc + 1)).2)
        (acc ++ its (pc + 1)) hm (by omega) (by omega)
        (fun k hk1 hk2 => hgood k (by omega) hk2)
      rw [hred, hih]
      obtain ⟨m2, rfl⟩ : ∃ m2, m = m2 + 1 := ⟨m - 1, by omega⟩
      simp [pagesConcat, nextUrls, List.append_assoc]

theorem playlistsLoop_len (env : PagesEnv) :
    ∀ fuel pc url acc, pc ≤ 20 →
      (playlistsLoop env fuel pc url acc).2.length ≤ 21 - pc := by
  intro fuel
  induction fuel with
  | zero => intro pc url acc h; simp [playlistsLoop]
  | succ f ih =>
    intro pc url acc h
    rcases hr : env.respond (pc + 1) with e | ⟨its1, nx1⟩
    · simp [playlistsLoop, hr]
      omega
    · cases its1 with
      | none =>
        simp [playlistsLoop, hr]
        omega
      | some l1 =>
        cases nx1 with
        | none =>
          simp [playlistsLoop, hr]
          omega
        | some u =>
          rcases hp : env.parseUrl u with _ | ps
          · simp [playlistsLoop, hr, hp]
            omega
          · by_cases hpc : pc + 1 > 20
            · simp [playlistsLoop, hr, hp, hpc]
              omega
            · have hrec := ih (pc + 1) (ps.1 ++ ps.2) (acc ++ l1) (by omega)
              simp [playlistsLoop, hr, hp, hpc]
              omega

/-- C6: `getUserPlaylists` requests pages of 50 starting from
`/me/playlists?limit=50`, follows each response's next link re-rooted to
`pathname + search`, and for every response sequence of at most 20 pages
returns the concatenation of all pages' `items` in page order; a response
without an `items` field makes it throw
`Invalid response format from Spotify API`; pagination stops early when a
next URL fails to parse (returning the pages so far) and when the page
count exceeds 20 (after page 21); at most 21 requests are ever made. -/
theorem getUserPlaylists_spec :
    (∀ (env : PagesEnv) (its : Nat → List String) (nxt : Nat → String)
        (pu : Nat → String × String) (n : Nat), 0 < n → n ≤ 20 →
       (∀ k, 0 < k → k < n →
         env.respond k = .page (some (its k)) (some (nxt k)) ∧
         env.parseUrl (nxt k) = some (pu k)) →
       env.respond n = .page (some (its n)) none →
       getUserPlaylists env =
         (.ok (pagesConcat its 0 n),
          "/me/playlists?limit=50" :: nextUrls pu 0 (n - 1))) ∧
    (∀ (env : PagesEnv) (its : Nat → List String) (nxt : Nat → String)
        (pu : Nat → String × String) (j : Nat) (nx : Option String),
       0 < j → j ≤ 21 →
       (∀ k, 0 < k → k < j →
         env.respond k = .page (some (its k)) (some (nxt k)) ∧
         env.parseUrl (nxt k) = some (pu k)) →
       env.respond j = .page none nx →
       (getUserPlaylists env).1 =
         .error "Invalid response format from Spotify API") ∧
    (∀ (env : PagesEnv) (its : Nat → List String) (nxt : Nat → String)
        (pu : Nat → String × String) (j : Nat) (u : String),
       0 < j → j ≤ 21 →
       (∀ k, 0 < k → k < j →
         env.respond k = .page (some (its k)) (some (nxt k)) ∧
         env.parseUrl (nxt k) = some (pu k)) →
       env.respond j = .page (some (its j)) (some u) →
       env.parseUrl u = none →
       getUserPlaylists env =
         (.ok (pagesConcat its 0 j),
          "/me/playlists?limit=50" :: nextUrls pu 0 (j - 1))) ∧
    (∀ (env : PagesEnv) (its : Nat → List String) (nxt : Nat → String)
        (pu : Nat → String × String),
       (∀ k, 0 < k → k ≤ 21 →
         env.respond k = .page (some (its k)) (some (nxt k)) ∧
         env.parseUrl (nxt k) = some (pu k)) →
       getUserPlaylists env =
         (.ok (pagesConcat its 0 21),
          "/me/playlists?limit=50" :: nextUrls pu 0 20)) ∧
    (∀ env, (getUserPlaylists env).2.length ≤ 21) := by
  refine ⟨?_, ?_, ?_, ?_, ?_⟩
  · intro env its nxt pu n h0 h20 hgood hlast
    exact playlistsLoop_ok env its nxt pu n 30 0 "/me/playlists?limit=50" []
      h0 (by omega) (by omega) (fun k h1 h2 => hgood k h1 (by omega))
      (by simpa using hlast)
  · intro env its nxt pu j nx h0 h21 hgood hlast
    exact playlistsLoop_invalid env its nxt pu j 30 0 "/me/playlists?limit=50" [] nx
      h0 (by omega) (by omega) (fun k h1 h2 => hgood k h1 (by omega))
      (by simpa using hlast)
  · intro env its nxt pu j u h0 h21 hgood hlast hpf
    exact playlistsLoop_parseFail env its nxt pu j 30 0 "/me/playlists?limit=50" [] u
      h0 (by omega) (by omega) (fun k h1 h2 => hgood k h1 (by omega))
      (by simpa using hlast) hpf
  · intro env its nxt pu hgood
    exact playlistsLoop_break env its nxt pu 21 30 0 "/me/playlists?limit=50" []
      (by omega) (by omega) (by omega) (fun k h1 h2 => hgood k h1 h2)
  · intro env
    have := playlistsLoop_len env 30 0 "/me/playlists?limit=50" [] (by omega)
    simpa [getUserPlaylists] using this

/-- Witness for C6 at concrete inputs: two pages are concatenated in
order and the second request uses the re-rooted next link. -/
theorem getUserPlaylists_spec_witness :
    getUserPlaylists
        ⟨fun k => if k = 1 then .page (some ["a"]) (some "u1")
                  else .page (some ["b"]) none,
         fun s => if s = "u1" then some ("/me/playlists", "?offset=50&limit=50")
                  else none⟩ =
      (.ok ["a", "b"],
       ["/me/playlists?limit=50", "/me/playlists?offset=50&limit=50"]) := by
  have h := getUserPlaylists_spec.1
    ⟨fun k => if k = 1 then .page (some ["a"]) (some "u1")
              else .page (some ["b"]) none,
     fun s => if s = "u1" then some ("/me/playlists", "?offset=50&limit=50")
              else none⟩
    (fun k => if k = 1 then ["a"] else ["b"]) (fun _ => "u1")
    (fun _ => ("/me/playlists", "?offset=50&limit=50")) 2
    (by omega) (by omega)
    (fun k h1 h2 => by
      have hk : k = 1 := by omega
      subst hk
      exact ⟨rfl, rfl⟩)
    rfl
  exact h.trans (by rfl)

/-! ## C7: the 10-second polling fallback -/

theorem stepTimers_pre (env : PollEnv) (s : PlayerTimers)
    (hdev1 : (env.device (s.time + 100)).isSome = false)
    (hpo : s.pollActive = false) (ht : s.time + 100 < 10000) :
    stepTimers env s = { s with time := s.time + 100 } := by
  have h1 : ¬ s.time + 100 = 10000 := by omega
  simp [stepTimers, hdev1, h1, hpo]

theorem stepTimers_at10000 (env : PollEnv) (s : PlayerTimers)
    (hdev1 : (env.device (s.time + 100)).isSome = false)
    (hready : s.isPlayerReady = false) (ht : s.time + 100 = 10000) :
    stepTimers env s =
      { s with checkActive := false, pollActive := true, time := s.time + 100 } := by
  have hdev2 : (env.device 10000).isSome = false := by rw [← ht]; exact hdev1
  simp [stepTimers, hdev2, ht, hready]

theorem stepTimers_run (env : PollEnv) (s : PlayerTimers)
    (_hdev1 : (env.device (s.time + 100)).isSome = false)
    (hch : s.checkActive = false) (hpo : s.pollActive = true)
    (ht : 10000 < s.time + 100) :
    stepTimers env s =
      if (s.time + 100 - 10000) % 1000 = 0 ∧ env.dragging (s.time + 100) = false then
        { s with time := s.time + 100,
                 stores := updatePlaybackState (env.resp (s.time + 100)) false s.stores,
                 events := s.events ++ [s.time + 100] }
      else { s with time := s.time + 100 } := by
  have h1 : ¬ s.time + 100 = 10000 := by omega
  by_cases hm : (s.time + 100 - 10000) % 1000 = 0
  · have hm2 : (s.time - 9900) % 1000 = 0 := by omega
    by_cases hd : env.dragging (s.time + 100) = true
    · simp [stepTimers, h1, hch, hpo, ht, hm, hm2, hd]
    · simp only [Bool.not_eq_true] at hd
      simp [stepTimers, h1, hch, hpo, ht, hm, hm2, hd]
  · have hm2 : ¬ (s.time - 9900) % 1000 = 0 := by omega
    simp [stepTimers, h1, hch, hpo, ht, hm, hm2]

theorem runTimers_shape (env : PollEnv) (s0 : PollStores)
    (hdev : ∀ u, env.device u = none) :
    ∀ n, (runTimers env s0 n).time = 100 * n ∧
      (runTimers env s0 n).isPlayerReady = false ∧
      (n < 100 → (runTimers env s0 n).checkActive = true ∧
        (runTimers env s0 n).pollActive = false) ∧
      (100 ≤ n → (runTimers env s0 n).checkActive = false ∧
        (runTimers env s0 n).pollActive = true) ∧
      (n ≤ 100 → (runTimers env s0 n).stores = s0 ∧
        (runTimers env s0 n).events = []) := by
  intro n
  induction n with
  | zero =>
    refine ⟨?_, ?_, fun _ => ⟨?_, ?_⟩, fun h => absurd h (by omega), fun _ => ⟨?_, ?_⟩⟩ <;>
      simp [runTimers, mountPlayer, hdev 0]
  | succ n ih =>
    obtain ⟨htime, hready, hlt, hge, hinit⟩ := ih
    have hdev1 : (env.device ((runTimers env s0 n).time + 100)).isSome = false := by
      simp [hdev]
    by_cases h100 : n < 100
    · obtain ⟨hch, hpo⟩ := hlt h100
      obtain ⟨hst, hev⟩ := hinit (by omega)
      by_cases h99 : n + 1 = 100
      · have ht : (runTimers env s0 n).time + 100 = 10000 := by rw [htime]; omega
        have hstep := stepTimers_at10000 env (runTimers env s0 n) hdev1 hready ht
        have hrun : runTimers env s0 (n + 1) =
            stepTimers env (runTimers env s0 n) := rfl
        rw [hrun, hstep]
        refine ⟨by simp [htime]; omega, by simp [hready],
          fun h => absurd h (by omega), fun _ => ⟨rfl, rfl⟩,
          fun _ => ⟨by simp [hst], by simp [hev]⟩⟩
      · have ht : (runTimers env s0 n).time + 100 < 10000 := by rw [htime]; omega
        have hstep := stepTimers_pre env (runTimers env s0 n) hdev1 hpo ht
        have hrun : runTimers env s0 (n + 1) =
            stepTimers env (runTimers env s0 n) := rfl
        rw [hrun, hstep]
        refine ⟨by simp [htime]; omega, by simp [hready],
          fun _ => ⟨by simp [hch], by simp [hpo]⟩,
          fun h => absurd h (by omega),
          fun _ => ⟨by simp [hst], by simp [hev]⟩⟩
    · obtain ⟨hch, hpo⟩ := hge (by omega)
      have ht : 10000 < (runTimers env s0 n).time + 100 := by rw [htime]; omega
      have hstep := stepTimers_run env (runTimers env s0 n) hdev1 hch hpo ht
      have hrun : runTimers env s0 (n + 1) =
          stepTimers env (runTimers env s0 n) := rfl
      rw [hrun, hstep]
      by_cases hc : ((runTimers env s0 n).time + 100 - 10000) % 1000 = 0 ∧
          env.dragging ((runTimers env s0 n).time + 100) = false
      · rw [if_pos hc]
        refine ⟨by simp [htime]; omega, by simp [hready],
          fun h => absurd h (by omega), fun _ => ⟨by simp [hch], by simp [hpo]⟩,
          fun h => absurd h (by omega)⟩
      · rw [if_neg hc]
        refine ⟨by simp [htime]; omega, by simp [hready],
          fun h => absurd h (by omega), fun _ => ⟨by simp [hch], by simp [hpo]⟩,
          fun h => absurd h (by omega)⟩

theorem runTimers_events_mem (env : PollEnv) (s0 : PollStores)
    (hdev : ∀ u, env.device u = none) :
    ∀ n t, t ∈ (runTimers env s0 n).events ↔
      (10000 < t ∧ t ≤ 100 * n ∧ t % 1000 = 0 ∧ env.dragging t = false) := by
  intro n
  induction n with
  | zero =>
    intro t
    simp only [runTimers, mountPlayer, hdev 0]
    simp
    omega
  | succ n ih =>
    intro t
    obtain ⟨htime, hready, hlt, hge, hinit⟩ := runTimers_shape env s0 hdev n
    have hdev1 : (env.device ((runTimers env s0 n).time + 100)).isSome = false := by
      simp [hdev]
    by_cases h100 : n < 100
    · have hev1 : (runTimers env s0 (n + 1)).events = [] :=
        ((runTimers_shape env s0 hdev (n + 1)).2.2.2.2 (by omega)).2
      rw [hev1]
      simp
      omega
    · obtain ⟨hch, hpo⟩ := hge (by omega)
      have ht : 10000 < (runTimers env s0 n).time + 100 := by rw [htime]; omega
      have hstep := stepTimers_run env (runTimers env s0 n) hdev1 hch hpo ht
      have hrun : runTimers env s0 (n + 1) =
          stepTimers env (runTimers env s0 n) := rfl
      rw [hrun, hstep]
      have htt : (runTimers env s0 n).time + 100 = 100 * (n + 1) := by
        rw [htime]; omega
      by_cases hc : ((runTimers env s0 n).time + 100 - 10000) % 1000 = 0 ∧
          env.dragging ((runTimers env s0 n).time + 100) = false
      · rw [if_pos hc]
        obtain ⟨hc1, hc2⟩ := hc
        rw [htt] at hc1 hc2
        simp only [List.mem_append, List.mem_singleton, ih t, htt]
        constructor
        · rintro (⟨ha, hb, hm2, hd2⟩ | rfl)
          · exact ⟨ha, by omega, hm2, hd2⟩
          · exact ⟨by omega, by omega, by omega, hc2⟩
        · rintro ⟨ha, hb, hm2, hd2⟩
          by_cases heq : t = 100 * (n + 1)
          · exact Or.inr heq
          · exact Or.inl ⟨ha, by omega, hm2, hd2⟩
      · rw [if_neg hc]
        simp only [ih t]
        constructor
        · rintro ⟨ha, hb, hm2, hd2⟩
          exact ⟨ha, by omega, hm2, hd2⟩
        · rintro ⟨ha, hb, hm2, hd2⟩
          refine ⟨ha, ?_, hm2, hd2⟩
          by_cases heq : t = 100 * (n + 1)
          · exfalso
            apply hc
            rw [htt]
            subst heq
            exact ⟨by omega, hd2⟩
          · omega

/-- C7: when the Web Playback SDK never reports a device id the component
is never marked ready; from 10 seconds (tick 100) after mount the 100 ms
readiness check is stopped and the 1 s REST polling interval is active;
at each later poll tick with the seek bar not dragged, a playback state
containing an item overwrites `currentTrack`, `isPlaying`,
`playbackPosition` (`progress_ms / 1000`) and `trackDuration`
(`duration_ms / 1000`) and the fetch is recorded; a tick with the seek
bar dragged changes neither stores nor fetch log; and the fetch log holds
exactly the whole-second times after the 10 s mark at which the user was
not dragging. -/
theorem player_polling_fallback :
    ∀ (env : PollEnv) (s0 : PollStores),
      (∀ u, env.device u = none) →
      ((∀ n, 100 ≤ n →
         (runTimers env s0 n).pollActive = true ∧
         (runTimers env s0 n).checkActive = false ∧
         (runTimers env s0 n).isPlayerReady = false) ∧
       (∀ n st it, 100 ≤ n →
         (100 * (n + 1)) % 1000 = 0 →
         env.dragging (100 * (n + 1)) = false →
         env.resp (100 * (n + 1)) = .ok (some st) →
         st.item = some it →
         (runTimers env s0 (n + 1)).stores =
           { currentTrack := some it, isPlaying := st.is_playing,
             playbackPosition := (st.progress_ms : ℚ) / 1000,
             trackDuration := (it.duration_ms : ℚ) / 1000 } ∧
         (runTimers env s0 (n + 1)).events =
           (runTimers env s0 n).events ++ [100 * (n + 1)]) ∧
       (∀ n, env.dragging (100 * (n + 1)) = true →
         (runTimers env s0 (n + 1)).stores = (runTimers env s0 n).stores ∧
         (runTimers env s0 (n + 1)).events = (runTimers env s0 n).events) ∧
       (∀ n t, t ∈ (runTimers env s0 n).events ↔
         (10000 < t ∧ t ≤ 100 * n ∧ t % 1000 = 0 ∧ env.dragging t = false))) := by
  intro env s0 hdev
  refine ⟨?_, ?_, ?_, runTimers_events_mem env s0 hdev⟩
  · intro n hn
    obtain ⟨htime, hready, hlt, hge, hinit⟩ := runTimers_shape env s0 hdev n
    obtain ⟨hch, hpo⟩ := hge hn
    exact ⟨hpo, hch, hready⟩
  · intro n st it hn hmod hdrag hresp hitem
    obtain ⟨htime, hready, hlt, hge, hinit⟩ := runTimers_shape env s0 hdev n
    obtain ⟨hch, hpo⟩ := hge hn
    have hdev1 : (env.device ((runTimers env s0 n).time + 100)).isSome = false := by
      simp [hdev]
    have ht : 10000 < (runTimers env s0 n).time + 100 := by rw [htime]; omega
    have htt : (runTimers env s0 n).time + 100 = 100 * (n + 1) := by
      rw [htime]; omega
    have hstep := stepTimers_run env (runTimers env s0 n) hdev1 hch hpo ht
    have hrun : runTimers env s0 (n + 1) =
        stepTimers env (runTimers env s0 n) := rfl
    have hc : ((runTimers env s0 n).time + 100 - 10000) % 1000 = 0 ∧
        env.dragging ((runTimers env s0 n).time + 100) = false := by
      rw [htt]
      exact ⟨by omega, hdrag⟩
    rw [hrun, hstep, if_pos hc]
    constructor
    · show updatePlaybackState (env.resp ((runTimers env s0 n).time + 100)) false
          (runTimers env s0 n).stores = _
      rw [htt, hresp]
      simp [updatePlaybackState, hitem]
    · show (runTimers env s0 n).events ++ [(runTimers env s0 n).time + 100] = _
      rw [htt]
  · intro n hdrag
    obtain ⟨htime, hready, hlt, hge, hinit⟩ := runTimers_shape env s0 hdev n
    have hdev1 : (env.device ((runTimers env s0 n).time + 100)).isSome = false := by
      simp [hdev]
    by_cases h100 : n < 100
    · by_cases h99 : n + 1 = 100
      · have ht : (runTimers env s0 n).time + 100 = 10000 := by rw [htime]; omega
        have hstep := stepTimers_at10000 env (runTimers env s0 n) hdev1 hready ht
        have hrun : runTimers env s0 (n + 1) =
            stepTimers env (runTimers env s0 n) := rfl
        rw [hrun, hstep]
        exact ⟨rfl, rfl⟩
      · obtain ⟨hch, hpo⟩ := hlt h100
        have ht : (runTimers env s0 n).time + 100 < 10000 := by rw [htime]; omega
        have hstep := stepTimers_pre env (runTimers env s0 n) hdev1 hpo ht
        have hrun : runTimers env s0 (n + 1) =
            stepTimers env (runTimers env s0 n) := rfl
        rw [hrun, hstep]
        exact ⟨rfl, rfl⟩
    · obtain ⟨hch, hpo⟩ := hge (by omega)
      have ht : 10000 < (runTimers env s0 n).time + 100 := by rw [htime]; omega
      have htt : (runTimers env s0 n).time + 100 = 100 * (n + 1) := by
        rw [htime]; omega
      have hstep := stepTimers_run env (runTimers env s0 n) hdev1 hch hpo ht
      have hrun : runTimers env s0 (n + 1) =
          stepTimers env (runTimers env s0 n) := rfl
      have hc : ¬ (((runTimers env s0 n).time + 100 - 10000) % 1000 = 0 ∧
          env.dragging ((runTimers env s0 n).time + 100) = false) := by
        rw [htt]
        rintro ⟨_, hfalse⟩
        rw [hdrag] at hfalse
        exact absurd hfalse (by simp)
      rw [hrun, hstep, if_neg hc]
      exact ⟨rfl, rfl⟩

/-- Witness for C7 at concrete inputs: with no device ever reported,
polling is active at the 10 s tick and the poll at t = 11000 ms overwrites
the stores from the fetched playback state. -/
theorem player_polling_fallback_witness :
    (runTimers
        ⟨fun _ => none,
         fun _ => .ok (some ⟨some ⟨some "u:x", 200000⟩, true, 5000⟩),
         fun _ => false⟩
        ⟨none, false, 0, 0⟩ 100).pollActive = true ∧
    (runTimers
        ⟨fun _ => none,
         fun _ => .ok (some ⟨some ⟨some "u:x", 200000⟩, true, 5000⟩),
         fun _ => false⟩
        ⟨none, false, 0, 0⟩ 110).stores =
      { currentTrack := some ⟨some "u:x", 200000⟩, isPlaying := true,
        playbackPosition := (5000 : ℚ) / 1000,
        trackDuration := (200000 : ℚ) / 1000 } := by
  constructor
  · exact ((player_polling_fallback
      ⟨fun _ => none, fun _ => .ok (some ⟨some ⟨some "u:x", 200000⟩, true, 5000⟩),
       fun _ => false⟩ ⟨none, false, 0, 0⟩ (fun _ => rfl)).1 100 (by omega)).1
  · exact ((player_polling_fallback
      ⟨fun _ => none, fun _ => .ok (some ⟨some ⟨some "u:x", 200000⟩, true, 5000⟩),
       fun _ => false⟩ ⟨none, false, 0, 0⟩ (fun _ => rfl)).2.1 109
      ⟨some ⟨some "u:x", 200000⟩, true, 5000⟩ ⟨some "u:x", 200000⟩
      (by omega) (by omega) rfl rfl rfl).1

/-! ## C3: shuffle toggling round trip -/

theorem shuffleGo_perm (rand : Nat → Nat) :
    ∀ fuel n l, (shuffleGo rand fuel n l).Perm l := by
  intro fuel
  induction fuel with
  | zero => intro n l; simp [shuffleGo]
  | succ fuel ih =>
    intro n l
    cases l with
    | nil => simp [shuffleGo]
    | cons x xs =>
      simp only [shuffleGo]
      rcases hg : (x :: xs).get? (rand n % (x :: xs).length) with _ | y
      · exact List.Perm.refl _
      · have hy : y ∈ x :: xs := List.get?_mem hg
        exact ((ih (n + 1) ((x :: xs).erase y)).cons y).trans
          (List.perm_cons_erase hy).symm

theorem shuffleArray_perm (rand : Nat → Nat) (l : List TrackJS) :
    (shuffleArray rand l).Perm l :=
  shuffleGo_perm rand l.length 0 l

theorem findIndexById_found (tid : Option String) :
    ∀ l : List TrackJS, (∃ x ∈ l, x.id = tid) →
      0 ≤ findIndexById l tid ∧
      ∃ tr, getTrack? l (findIndexById l tid) = some tr ∧ tr.id = tid := by
  intro l
  induction l with
  | nil => rintro ⟨x, hx, _⟩; simp at hx
  | cons t rest ih =>
    rintro ⟨x, hx, hid⟩
    by_cases ht : t.id = tid
    · refine ⟨by simp [findIndexById, ht], t, ?_, ht⟩
      simp [findIndexById, ht, getTrack?]
    · have hxr : x ∈ rest := by
        rcases List.mem_cons.1 hx with h | h
        · exact absurd (h ▸ hid) ht
        · exact h
      obtain ⟨hge, tr, htr, htrid⟩ := ih ⟨x, hxr, hid⟩
      have hne : findIndexById rest tid ≠ -1 := by omega
      have hstep : findIndexById (t :: rest) tid = findIndexById rest tid + 1 := by
        simp [findIndexById, ht, hne]
      refine ⟨by omega, tr, ?_, htrid⟩
      have h0 : (0 : Int) ≤ findIndexById rest tid + 1 := by omega
      have hget : getTrack? rest (findIndexById rest tid) =
          rest.get? (findIndexById rest tid).toNat := by
        simp [getTrack?, hge]
      have htn : (findIndexById rest tid + 1).toNat =
          (findIndexById rest tid).toNat + 1 := by omega
      rw [hstep]
      simp only [getTrack?, h0, if_pos, htn]
      rw [List.get?_cons_succ]
      rw [hget] at htr
      exact htr

/-- C3: toggling shuffle on saves the current order into
`originalTrackOrder` (only when no original order is already saved — an
already-saved order is left alone) and replaces `currentTracks` with a
permutation of it, repointing `currentTrackIndex` at the playing track;
toggling off restores exactly the saved order and points
`currentTrackIndex` at that track's position in it — so, starting from a
non-empty list with no saved order, toggling shuffle on and then off is
the identity on the track list and preserves the playing track.
`shuffleArray` is not in the available sources and is modelled from the
spec: an oracle-driven permutation (see `shuffleArray_perm`). -/
theorem toggleShuffle_spec :
    (∀ f s, s.isShuffleOn = false → s.originalTrackOrder ≠ [] →
       (toggleShuffle f s).originalTrackOrder = s.originalTrackOrder) ∧
    (∀ rand s t, s.isShuffleOn = false → s.originalTrackOrder = [] →
       s.currentTracks ≠ [] → s.currentTrack = some t → truthyStr t.id = true →
       t ∈ s.currentTracks →
       ((toggleShuffle (shuffleArray rand) s).originalTrackOrder = s.currentTracks ∧
        ((toggleShuffle (shuffleArray rand) s).currentTracks).Perm s.currentTracks ∧
        (toggleShuffle (shuffleArray rand) s).isShuffleOn = true ∧
        (toggleShuffle (shuffleArray rand) s).currentTrack = s.currentTrack ∧
        (∃ tr, getTrack? (toggleShuffle (shuffleArray rand) s).currentTracks
            (toggleShuffle (shuffleArray rand) s).currentTrackIndex = some tr ∧
            tr.id = t.id) ∧
        (toggleShuffle (shuffleArray rand)
            (toggleShuffle (shuffleArray rand) s)).currentTracks = s.currentTracks ∧
        (toggleShuffle (shuffleArray rand)
            (toggleShuffle (shuffleArray rand) s)).currentTrack = s.currentTrack ∧
        (toggleShuffle (shuffleArray rand)
            (toggleShuffle (shuffleArray rand) s)).isShuffleOn = false ∧
        (toggleShuffle (shuffleArray rand)
            (toggleShuffle (shuffleArray rand) s)).currentTrackIndex =
          findIndexById s.currentTracks t.id)) := by
  constructor
  · intro f s hOn hOrig
    have hlen : ¬ s.originalTrackOrder.length = 0 := by
      simpa [List.length_eq_zero] using hOrig
    simp only [toggleShuffle, hOn, Bool.not_false, if_pos, hlen, if_neg]
    by_cases hct : truthyStr (s.currentTrack.bind TrackJS.id) = true <;>
      by_cases hix : (0 : Int) ≤ findIndexById (f s.currentTracks)
        (s.currentTrack.bind TrackJS.id) <;>
      simp [hct, hix, hlen]
  · intro rand s t hOn hOrig hne hct htid hmem
    have hperm := shuffleArray_perm rand s.currentTracks
    have hmem1 : t ∈ shuffleArray rand s.currentTracks := hperm.mem_iff.2 hmem
    obtain ⟨hge1, tr1, htr1, htr1id⟩ :=
      findIndexById_found t.id (shuffleArray rand s.currentTracks) ⟨t, hmem1, rfl⟩
    obtain ⟨hge0, tr0, htr0, htr0id⟩ :=
      findIndexById_found t.id s.currentTracks ⟨t, hmem, rfl⟩
    have hs1 : toggleShuffle (shuffleArray rand) s =
        { currentTracks := shuffleArray rand s.currentTracks,
          originalTrackOrder := s.currentTracks,
          currentTrackIndex := findIndexById (shuffleArray rand s.currentTracks) t.id,
          currentTrack := s.currentTrack,
          isShuffleOn := true } := by
      simp [toggleShuffle, hOn, hOrig, hct, htid, hge1]
    have hlenpos : 0 < s.currentTracks.length := List.length_pos.2 hne
    have hs2 : toggleShuffle (shuffleArray rand)
        ({ currentTracks := shuffleArray rand s.currentTracks,
           originalTrackOrder := s.currentTracks,
           currentTrackIndex := findIndexById (shuffleArray rand s.currentTracks) t.id,
           currentTrack := s.currentTrack,
           isShuffleOn := true } : PlayerState) =
        { currentTracks := s.currentTracks,
          originalTrackOrder := s.currentTracks,
          currentTrackIndex := findIndexById s.currentTracks t.id,
          currentTrack := s.currentTrack,
          isShuffleOn := false } := by
      simp [toggleShuffle, hct, htid, hge0, hlenpos]
    rw [hs1, hs2]
    exact ⟨rfl, hperm, rfl, rfl, ⟨tr1, htr1, htr1id⟩, rfl, rfl, rfl, rfl⟩

/-- Witness for C3 at concrete inputs: a two-track list, shuffled on and
off, comes back identical with the playing track's index restored. -/
theorem toggleShuffle_spec_witness :
    (toggleShuffle (shuffleArray (fun _ => 0))
        (toggleShuffle (shuffleArray (fun _ => 0))
          ⟨[⟨some "a", some "A", some "u:a", none, none, none⟩,
            ⟨some "b", some "B", some "u:b", none, none, none⟩], [], 0,
           some ⟨some "a", some "A", some "u:a", none, none, none⟩,
           false⟩)).currentTracks =
      [⟨some "a", some "A", some "u:a", none, none, none⟩,
       ⟨some "b", some "B", some "u:b", none, none, none⟩] :=
  (toggleShuffle_spec.2 (fun _ => 0)
    ⟨[⟨some "a", some "A", some "u:a", none, none, none⟩,
      ⟨some "b", some "B", some "u:b", none, none, none⟩], [], 0,
     some ⟨some "a", some "A", some "u:a", none, none, none⟩, false⟩
    ⟨some "a", some "A", some "u:a", none, none, none⟩
    rfl rfl (by decide) rfl (by decide) (by decide)).2.2.2.2.2.1

/-! ## C8: `findNextPlayableTrack` termination and safety -/

theorem isTrackPlayable_true_isSome (c : Cache) (t? : Option TrackJS)
    (h : (isTrackPlayable c t?).1 = true) : t?.isSome = true := by
  cases t? with
  | none => simp [isTrackPlayable] at h
  | some t => rfl

theorem getTrack?_some_bounds (tracks : List TrackJS) (i : Int) (t : TrackJS)
    (h : getTrack? tracks i = some t) : 0 ≤ i ∧ i.toNat < tracks.length := by
  unfold getTrack? at h
  split at h
  · next h0 =>
    refine ⟨h0, ?_⟩
    obtain ⟨hlt, _⟩ := List.get?_eq_some.1 h
    exact hlt
  · exact absurd h (by simp)

theorem iterStep_shift (len : Nat) (direction start : Int) (n : Nat) :
    iterStep len direction start (n + 1) =
      iterStep len direction (stepIndex len direction start) n := by
  induction n with
  | zero => rfl
  | succ n ih => rw [iterStep, ih, iterStep]

theorem findLoop_spec (tracks : List TrackJS) (startIndex direction : Int) :
    ∀ fuel i c,
      (findLoop tracks startIndex direction fuel i c).2.2.length ≤ fuel ∧
      ((findLoop tracks startIndex direction fuel i c).1 = -1 ∨
        (0 ≤ (findLoop tracks startIndex direction fuel i c).1 ∧
         (findLoop tracks startIndex direction fuel i c).1.toNat < tracks.length ∧
         (findLoop tracks startIndex direction fuel i c).2.2.getLast? =
           some ((findLoop tracks startIndex direction fuel i c).1, true))) ∧
      (findLoop tracks startIndex direction fuel i c).2.2.map Prod.fst =
        (List.range (findLoop tracks startIndex direction fuel i c).2.2.length).map
          (fun k => iterStep tracks.length direction i (k + 1)) := by
  intro fuel
  induction fuel with
  | zero =>
    intro i c
    exact ⟨by simp [findLoop], Or.inl rfl, by simp [findLoop]⟩
  | succ fuel ih =>
    intro i c
    by_cases hp : (isTrackPlayable c
        (getTrack? tracks (stepIndex tracks.length direction i))).1 = true
    · have hsome := isTrackPlayable_true_isSome _ _ hp
      obtain ⟨t, ht⟩ := Option.isSome_iff_exists.1 hsome
      obtain ⟨h0, hlt⟩ := getTrack?_some_bounds _ _ _ ht
      have hred : findLoop tracks startIndex direction (fuel + 1) i c =
          (stepIndex tracks.length direction i,
           (isTrackPlayable c (getTrack? tracks (stepIndex tracks.length direction i))).2,
           [(stepIndex tracks.length direction i, true)]) := by
        simp [findLoop, hp]
      rw [hred]
      refine ⟨by simp, Or.inr ⟨h0, hlt, by simp⟩, ?_⟩
      simp [List.range_succ, iterStep]
    · by_cases hs : stepIndex tracks.length direction i = startIndex
      · rw [hs] at hp
        have hred : findLoop tracks startIndex direction (fuel + 1) i c =
            (-1, (isTrackPlayable c (getTrack? tracks startIndex)).2,
             [(startIndex, false)]) := by
          simp [findLoop, hs, hp]
        rw [hred]
        refine ⟨by simp, Or.inl rfl, ?_⟩
        simp [List.range_succ, iterStep, hs]
      · obtain ⟨ihlen, ihres, ihmap⟩ :=
          ih (stepIndex tracks.length direction i)
            (isTrackPlayable c (getTrack? tracks (stepIndex tracks.length direction i))).2
        have hred : findLoop tracks startIndex direction (fuel + 1) i c =
            ((findLoop tracks startIndex direction fuel
                (stepIndex tracks.length direction i)
                (isTrackPlayable c
                  (getTrack? tracks (stepIndex tracks.length direction i))).2).1,
             (findLoop tracks startIndex direction fuel
                (stepIndex tracks.length direction i)
                (isTrackPlayable c
                  (getTrack? tracks (stepIndex tracks.length direction i))).2).2.1,
             (stepIndex tracks.length direction i, false) ::
               (findLoop tracks startIndex direction fuel
                  (stepIndex tracks.length direction i)
                  (isTrackPlayable c
                    (getTrack? tracks (stepIndex tracks.length direction i))).2).2.2) := by
          simp [findLoop, hp, hs]
        rw [hred]
        refine ⟨by simpa using Nat.add_le_add_right ihlen 1, ?_, ?_⟩
        · rcases ihres with h | ⟨h1, h2, h3⟩
          · exact Or.inl h
          · refine Or.inr ⟨h1, h2, ?_⟩
            rcases htr : (findLoop tracks startIndex direction fuel
                (stepIndex tracks.length direction i)
                (isTrackPlayable c
                  (getTrack? tracks (stepIndex tracks.length direction i))).2).2.2 with
              _ | ⟨b, rest2⟩
            · rw [htr] at h3; simp at h3
            · rw [htr] at h3
              simpa [List.getLast?_cons_cons] using h3
        · have hfun : (fun k => iterStep tracks.length direction
              (stepIndex tracks.length direction i) (k + 1)) =
              ((fun k => iterStep tracks.length direction i (k + 1)) ∘ Nat.succ) := by
            funext k
            simp only [Function.comp_apply]
            exact (iterStep_shift tracks.length direction i (k + 1)).symm
          simp only [List.map_cons, List.length_cons, List.range_succ_eq_map,
            List.map_map]
          rw [ihmap, hfun]
          simp [iterStep]

/-- C8: for every track list and start index, `findNextPlayableTrack`
terminates after at most `tracks.length` candidate steps and returns
either `-1` or an in-bounds index whose candidate visit found the track
playable; candidates are visited cyclically from the start index by
iterating `stepIndex` (forward: `index + 1` wrapping from the last element
to `0`; backward: `index - 1` wrapping from `0` to the last element); and
for the empty list it returns `-1`. -/
theorem findNextPlayableTrack_spec :
    ∀ c tracks startIndex direction,
      ((tracks = [] → (findNextPlayableTrack c tracks startIndex direction).1 = -1) ∧
       (findNextPlayableTrack c tracks startIndex direction).2.2.length ≤ tracks.length ∧
       ((findNextPlayableTrack c tracks startIndex direction).1 = -1 ∨
         (0 ≤ (findNextPlayableTrack c tracks startIndex direction).1 ∧
          (findNextPlayableTrack c tracks startIndex direction).1.toNat < tracks.length ∧
          (findNextPlayableTrack c tracks startIndex direction).2.2.getLast? =
            some ((findNextPlayableTrack c tracks startIndex direction).1, true))) ∧
       (findNextPlayableTrack c tracks startIndex direction).2.2.map Prod.fst =
         (List.range
             (findNextPlayableTrack c tracks startIndex direction).2.2.length).map
           (fun k => iterStep tracks.length direction startIndex (k + 1))) := by
  intro c tracks startIndex direction
  by_cases h0 : tracks.length = 0
  · refine ⟨fun _ => ?_, ?_, Or.inl ?_, ?_⟩ <;> simp [findNextPlayableTrack, h0]
  · obtain ⟨hlen, hres, hmap⟩ := findLoop_spec tracks startIndex direction
      tracks.length startIndex c
    have hne : findNextPlayableTrack c tracks startIndex direction =
        findLoop tracks startIndex direction tracks.length startIndex c := by
      simp [findNextPlayableTrack, h0]
    rw [hne]
    exact ⟨fun he => absurd (by simp [he]) h0, hlen, hres, hmap⟩

/-- Witness for C8 at concrete inputs: the empty list yields `-1`, and on
a two-track list the search visits at most two candidates. -/
theorem findNextPlayableTrack_spec_witness :
    (findNextPlayableTrack [] [] 0 1).1 = -1 ∧
    (findNextPlayableTrack []
        [⟨some "a", some "A", some "u:a", none, none, none⟩,
         ⟨some "b", some "B", none, none, none, none⟩] 0 1).2.2.length ≤ 2 :=
  ⟨(findNextPlayableTrack_spec [] [] 0 1).1 rfl,
   (findNextPlayableTrack_spec []
      [⟨some "a", some "A", some "u:a", none, none, none⟩,
       ⟨some "b", some "B", none, none, none, none⟩] 0 1).2.1⟩

/-! ## C5: `removeTrack` updates state optimistically -/

/-- C5: `removeTrack` sets the `currentTracks` store to the input list
with every track of the removed track's id filtered out only after the
remote removal call succeeds; if that call throws, the store and the
returned list are the unchanged input. (Stated away from the playing
track so the auto-play branch is not taken.) -/
theorem removeTrack_optimistic :
    ∀ env autoplay track tracks st sel,
      st.selectedPlaylist = some sel →
      (((st.currentTrack.bind TrackJS.id == track.id) = false →
         ∀ u, env.removeOutcome = .ok u →
           removeTrack env autoplay track tracks st =
             (tracks.filter (fun t => !(t.id == track.id)),
              { st with currentTracks := tracks.filter (fun t => !(t.id == track.id)) },
              [ApiEv.removeTrackCall sel.id (getOperationalUri track)])) ∧
       (∀ e, env.removeOutcome = .error e →
          removeTrack env autoplay track tracks st =
            (tracks, st, [ApiEv.removeTrackCall sel.id (getOperationalUri track)]))) := by
  intro env autoplay track tracks st sel hsel
  constructor
  · intro hnp u hok
    simp [removeTrack, hsel, hok, hnp]
  · intro e herr
    simp [removeTrack, hsel, herr]

/-- Witness for C5 at concrete inputs: a failing remote call leaves the
list and the stores unchanged. -/
theorem removeTrack_optimistic_witness :
    removeTrack ⟨none, .ok (), .error "boom", none⟩ (fun _ _ s => s)
        ⟨some "a", some "A", some "u:a", none, none, none⟩
        [⟨some "a", some "A", some "u:a", none, none, none⟩,
         ⟨some "b", some "B", some "u:b", none, none, none⟩]
        ⟨[], none, -1, false, some ⟨"sel", "Sel"⟩, none, []⟩ =
      ([⟨some "a", some "A", some "u:a", none, none, none⟩,
        ⟨some "b", some "B", some "u:b", none, none, none⟩],
       ⟨[], none, -1, false, some ⟨"sel", "Sel"⟩, none, []⟩,
       [ApiEv.removeTrackCall "sel" (some "u:a")]) := by
  have h := (removeTrack_optimistic ⟨none, .ok (), .error "boom", none⟩ (fun _ _ s => s)
    ⟨some "a", some "A", some "u:a", none, none, none⟩
    [⟨some "a", some "A", some "u:a", none, none, none⟩,
     ⟨some "b", some "B", some "u:b", none, none, none⟩]
    ⟨[], none, -1, false, some ⟨"sel", "Sel"⟩, none, []⟩ ⟨"sel", "Sel"⟩ rfl).2 "boom" rfl
  exact h.trans (by decide)

/-! ## C4: `moveTrack` -/

/-- C4 counterexample to the claim as stated: for a relinked track
(`linked_from` present, so `isTrackRelinked` is true) whose
`linked_from.uri` is the empty string, the remove call issued by
`moveTrack` uses `track.uri`, not `linked_from.uri` — JS `||` falls
through on the falsy empty string. -/
theorem moveTrack_claim_counterexample :
    isTrackRelinked
        ⟨some "a", some "S", some "spotify:track:orig", none, none,
         some ⟨some "l", some ""⟩⟩ = true ∧
    (TrackJS.linked_from
        ⟨some "a", some "S", some "spotify:track:orig", none, none,
         some ⟨some "l", some ""⟩⟩).bind LinkedFrom.uri = some "" ∧
    (moveTrack ⟨some [], .ok (), .ok (), none⟩ (fun _ _ s => s)
        ⟨some "a", some "S", some "spotify:track:orig", none, none,
         some ⟨some "l", some ""⟩⟩
        [⟨some "a", some "S", some "spotify:track:orig", none, none,
          some ⟨some "l", some ""⟩⟩]
        ⟨[], none, -1, false, some ⟨"sel", "Sel"⟩, some ⟨"tgt", "Tgt"⟩, []⟩).2.2 =
      [ApiEv.getPlaylistTracks "tgt", ApiEv.addTrack "tgt" (some "spotify:track:orig"),
       ApiEv.removeTrackCall "sel" (some "spotify:track:orig"),
       ApiEv.getPlaylist "tgt"] ∧
    (some "spotify:track:orig" : Option String) ≠ some "" := by
  refine ⟨rfl, rfl, ?_, by decide⟩
  decide

/-- C4 (amended): `moveTrack` first fetches the target playlist's tracks
and adds the track there only when no track with the same id is present,
then removes it from the source playlist using the operational URI
(`linked_from.uri` when the track is relinked and `linked_from.uri` is
non-empty, otherwise `uri`), and replaces the local track list — both the
returned list and the `currentTracks` store — with the input minus every
track of that id; with either playlist unset the input is returned
unchanged. (Stated away from the playing track so the auto-play branch is
not taken.) -/
theorem moveTrack_spec :
    ∀ env autoplay track tracks st,
      ((∀ tgt sel l, st.targetPlaylist = some tgt → st.selectedPlaylist = some sel →
          env.targetTracksResult = some l →
          env.addOutcome = .ok () → env.removeOutcome = .ok () →
          (st.currentTrack.bind TrackJS.id == track.id) = false →
          (moveTrack env autoplay track tracks st).1 =
              tracks.filter (fun t => !(t.id == track.id)) ∧
            (moveTrack env autoplay track tracks st).2.1.currentTracks =
              tracks.filter (fun t => !(t.id == track.id)) ∧
            (moveTrack env autoplay track tracks st).2.2 =
              (if l.any (fun t => t.id == track.id) then
                 [ApiEv.getPlaylistTracks tgt.id]
               else
                 [ApiEv.getPlaylistTracks tgt.id,
                  ApiEv.addTrack tgt.id (getOperationalUri track)]) ++
                [ApiEv.removeTrackCall sel.id (getOperationalUri track),
                 ApiEv.getPlaylist tgt.id]) ∧
       (st.targetPlaylist = none ∨ st.selectedPlaylist = none →
          moveTrack env autoplay track tracks st = (tracks, st, []))) := by
  intro env autoplay track tracks st
  constructor
  · intro tgt sel l htgt hsel hl hadd hrem hnp
    rcases hany : l.any (fun t => t.id == track.id) with _ | _ <;>
    · rcases hrt : env.refreshedTarget with _ | p <;>
        simp [moveTrack, htgt, hsel, addTrackToPlaylistHelper, hl, hadd, hrem, hnp,
          hany, hrt]
  · intro h
    rcases h with h | h
    · rcases hs : st.selectedPlaylist with _ | s <;> simp [moveTrack, h, hs]
    · rcases ht : st.targetPlaylist with _ | t2 <;> simp [moveTrack, h, ht]

/-- Witness for C4 at concrete inputs: the track is absent from the
target, so it is added there and removed from the source, and the local
list drops it. -/
theorem moveTrack_spec_witness :
    (moveTrack ⟨some [], .ok (), .ok (), none⟩ (fun _ _ s => s)
        ⟨some "a", some "A", some "u:a", none, none, none⟩
        [⟨some "a", some "A", some "u:a", none, none, none⟩,
         ⟨some "b", some "B", some "u:b", none, none, none⟩]
        ⟨[], none, -1, false, some ⟨"sel", "Sel"⟩, some ⟨"tgt", "Tgt"⟩, []⟩).2.2 =
      [ApiEv.getPlaylistTracks "tgt", ApiEv.addTrack "tgt" (some "u:a"),
       ApiEv.removeTrackCall "sel" (some "u:a"), ApiEv.getPlaylist "tgt"] := by
  have h := ((moveTrack_spec ⟨some [], .ok (), .ok (), none⟩ (fun _ _ s => s)
    ⟨some "a", some "A", some "u:a", none, none, none⟩
    [⟨some "a", some "A", some "u:a", none, none, none⟩,
     ⟨some "b", some "B", some "u:b", none, none, none⟩]
    ⟨[], none, -1, false, some ⟨"sel", "Sel"⟩, some ⟨"tgt", "Tgt"⟩, []⟩).1
    ⟨"tgt", "Tgt"⟩ ⟨"sel", "Sel"⟩ [] rfl rfl rfl rfl rfl rfl).2.2
  exact h.trans (by decide)

/-! ## C9: the repeat-mode store invariant -/

/-- C9: the repeat-mode store only ever holds one of "off", "playlist" or
"track": initialization from `localStorage` falls back to "off" for any
stored value outside that set, every `set` persists the new value to
`localStorage`, and `cycleRepeatMode` steps off to playlist, playlist to
track, and track to off, so three consecutive cycles restore the starting
mode. -/
theorem repeatMode_invariant :
    (∀ stored, (initRepeatMode stored).value ∈ repeatModeValues) ∧
    (∀ v st, (repeatModeSet v st).stored = some v ∧ (repeatModeSet v st).value = v) ∧
    cycleRepeatMode "off" = "playlist" ∧
    cycleRepeatMode "playlist" = "track" ∧
    cycleRepeatMode "track" = "off" ∧
    (∀ st, st.value ∈ repeatModeValues →
      (pressRepeat st).value ∈ repeatModeValues ∧
      (pressRepeat st).stored = some (pressRepeat st).value ∧
      (pressRepeat (pressRepeat (pressRepeat st))).value = st.value) := by
  refine ⟨?_, fun v st => ⟨rfl, rfl⟩, rfl, rfl, rfl, ?_⟩
  · intro stored
    cases stored with
    | none => simp [initRepeatMode, repeatModeValues]
    | some s =>
      simp only [initRepeatMode]
      split
      · next h => exact h.2
      · simp [repeatModeValues]
  · intro st h
    simp only [repeatModeValues, List.mem_cons, List.not_mem_nil, or_false] at h
    rcases h with h | h | h <;>
      simp [pressRepeat, repeatModeSet, cycleRepeatMode, h, repeatModeValues]

/-- Witness for C9 at concrete inputs. -/
theorem repeatMode_invariant_witness :
    (initRepeatMode (some "bogus")).value ∈ repeatModeValues ∧
    (pressRepeat (pressRepeat (pressRepeat ⟨"off", none⟩))).value = "off" :=
  ⟨repeatMode_invariant.1 (some "bogus"),
   (repeatMode_invariant.2.2.2.2.2 ⟨"off", none⟩ (by decide)).2.2⟩

/-! ## C10: `isTrackPlayable` memoization -/

/-- C10: `isTrackPlayable` memoizes its verdict per track id: after a
first call for a track of a given id, every later call for any track with
that same id (and a truthy name) returns the cached first verdict even
when its `is_playable`, `restrictions` or `uri` differ; a cleared cache
recomputes the raw verdict; tracks missing an id or a name are reported
unplayable without the cache being touched; so repeated calls with equal
arguments return equal results. -/
theorem isTrackPlayable_memoizes :
    (∀ c t t1, truthyStr t.id = true → truthyStr t.name = true →
       truthyStr t1.name = true → t1.id = t.id →
       (isTrackPlayable (isTrackPlayable c (some t)).2 (some t1)).1 =
         (isTrackPlayable c (some t)).1) ∧
    (∀ c t, truthyStr t.id = false ∨ truthyStr t.name = false →
       isTrackPlayable c (some t) = (false, c)) ∧
    (∀ t, truthyStr t.id = true → truthyStr t.name = true →
       (isTrackPlayable clearTrackPlayabilityCache (some t)).1 = rawVerdict t) := by
  refine ⟨?_, ?_, ?_⟩
  · intro c t t1 hid hname hname1 hid1
    obtain ⟨i, hi, hi0⟩ := (truthyStr_iff _).1 hid
    obtain ⟨n, hn, hn0⟩ := (truthyStr_iff _).1 hname
    obtain ⟨n1, hn1, hn10⟩ := (truthyStr_iff _).1 hname1
    rw [hi] at hid1
    rcases hc : cacheLookup c i with _ | v <;>
      simp [isTrackPlayable, hi, hn, hn1, hid1, hi0, hn0, hn10, hc, cacheLookup]
  · intro c t h
    rcases ht : t.id with _ | i
    · simp [isTrackPlayable, ht]
    · rcases hn : t.name with _ | n
      · simp [isTrackPlayable, ht, hn]
      · rw [ht, hn] at h
        have he : i = "" ∨ n = "" := by simpa [truthyStr] using h
        simp [isTrackPlayable, ht, hn, he]
  · intro t hid hname
    obtain ⟨i, hi, hi0⟩ := (truthyStr_iff _).1 hid
    obtain ⟨n, hn, hn0⟩ := (truthyStr_iff _).1 hname
    simp [isTrackPlayable, hi, hn, hi0, hn0, clearTrackPlayabilityCache, cacheLookup]

/-- Witness for C10 at concrete inputs: a second call for the same id
returns the first verdict even though `is_playable` now says false. -/
theorem isTrackPlayable_memoizes_witness :
    (isTrackPlayable
        (isTrackPlayable [] (some ⟨some "a", some "x", some "u", none, none, none⟩)).2
        (some ⟨some "a", some "y", none, some false, none, none⟩)).1 =
      (isTrackPlayable [] (some ⟨some "a", some "x", some "u", none, none, none⟩)).1 :=
  isTrackPlayable_memoizes.1 [] ⟨some "a", some "x", some "u", none, none, none⟩
    ⟨some "a", some "y", none, some false, none, none⟩ (by decide) (by decide)
    (by decide) rfl

end Motify
